import Mathlib

/-!
Shallow embedding of the two-phase delivery-acknowledgment core of
`internal/mail/delivery.go` (package `mail`), together with the parts of
Go's `time` package that the code calls: `Time.UTC`, `Time.Format(RFC3339)`
and `time.Parse(RFC3339, ·)`.

Modelling notes:
* A Go `time.Time` is modelled by `Mail.GoTime`: the instant as seconds
  since the Unix epoch (`sec : Int`), sub-second nanoseconds
  (`nsec : Nat`), and the location's zone offset in seconds east of UTC
  (`offset : Int`).  This captures exactly what `UTC`, `Format` and
  `Parse` observe of a `time.Time`.
* Go strings are Lean `String`s; byte indexing in the Go code is modelled
  by `Char`-list indexing, which agrees with it on every code path here
  because every byte the Go code inspects or slices at is ASCII (UTF-8 is
  self-synchronizing, so an ASCII prefix of the byte sequence is exactly
  an ASCII prefix of the character sequence).
* `time.Parse` with layout `time.RFC3339` first tries the strict
  `parseRFC3339` fast path of `time/format.go` and, when that fails,
  falls back to the lax general `parse` loop, which additionally accepts
  a single-digit hour, a comma as the fractional-second separator, and
  numeric zone offsets whose hour/minute fields exceed 23/59.
  `Mail.timeParse` embeds that two-tier control flow: `Mail.parseRFC3339`
  is the strict fast path and `Mail.parseLaxRFC3339` is the general loop
  specialized to the fixed chunk sequence of the `RFC3339` layout.
  Likewise `Format(RFC3339)` is the `appendFormatRFC3339` fast path.
* Go's `uint64` casts are modelled as `% 2 ^ 64` on `Int`; `uint64`
  arithmetic inside the date computations never wraps for the values
  reachable here, and the subtractions in them never underflow (each one
  subtracts a `div`-derived multiple), so `Nat` subtraction agrees.
-/

namespace Mail

/-- Model of Go `time.Time` as observed by `UTC`/`Format`/`Parse`:
the wall-clock instant (Unix seconds plus nanoseconds) and the zone
offset (seconds east of UTC) of the time's location. -/
structure GoTime where
  sec : Int
  nsec : Nat
  offset : Int
deriving DecidableEq

/-- Go `Time.UTC()`: same instant, location set to UTC (offset 0). -/
def GoTime.utc (t : GoTime) : GoTime := { t with offset := 0 }

/-- Go `time.absoluteZeroYear`. -/
def absoluteZeroYear : Int := -292277022399

/-- Go `unixToInternal + internalToAbsolute`: seconds from the absolute
epoch (Jan 1 of `absoluteZeroYear`) to the Unix epoch. -/
def unixToAbsolute : Int := 9223372028715321600

/-- Go `Time.locabs` absolute seconds: `uint64(unix + offset + unixToAbsolute)`. -/
def timeAbs (t : GoTime) : Nat := ((t.sec + t.offset + unixToAbsolute) % (2 ^ 64 : Int)).toNat

/-- Go `time.isLeap`.  (Go writes `year%4 == 0` with truncated `%`; for a
`== 0` divisibility test the remainder convention is irrelevant, so `emod`
is used.) -/
def isLeap (year : Int) : Bool := year % 4 = 0 ∧ (year % 100 ≠ 0 ∨ year % 400 = 0)

/-- Go `time.daysBefore`: days in a non-leap year before the start of
month `m` (1-based; index 0 unused as in Go, index 12 = 365). -/
def daysBefore : List Nat := [0, 31, 59, 90, 120, 151, 181, 212, 243, 273, 304, 334, 365]

/-- Lookup in `daysBefore` (all call sites are in range). -/
def dB (m : Nat) : Nat := daysBefore.getD m 0

/-- Go `time.daysIn`. -/
def daysIn (m : Nat) (year : Int) : Nat :=
  if m = 2 ∧ isLeap year then 29 else dB m - dB (m - 1)

/-- The year/year-day part of Go `time.absDate`: given days since the
absolute epoch, cut off 400/100/4/1-year cycles (`n -= n >> 2` is
`n := n - n / 4`).  Returns (years since `absoluteZeroYear`, day of year). -/
def absYear (d : Nat) : Nat × Nat :=
  let n400 := d / 146097
  let d1 := d - 146097 * n400
  let n100 := d1 / 36524
  let n100 := n100 - n100 / 4
  let d2 := d1 - 36524 * n100
  let n4 := d2 / 1461
  let d3 := d2 - 1461 * n4
  let n1 := d3 / 365
  let n1 := n1 - n1 / 4
  let yday := d3 - 365 * n1
  (400 * n400 + 100 * n100 + 4 * n4 + n1, yday)

/-- The month/day part of Go `time.absDate` (`full = true`): split a day
of year into (month 1..12, day of month), with February 29 special-cased
in leap years. -/
def monthDay (leap : Bool) (yday : Nat) : Nat × Nat :=
  if leap ∧ yday = 59 then (2, 29)
  else
    let day := if leap ∧ 59 < yday then yday - 1 else yday
    let m0 := day / 31
    let e := dB (m0 + 1)
    let p := if e ≤ day then (m0 + 1, e) else (m0, dB m0)
    (p.1 + 1, day - p.2 + 1)

/-- Go `time.absDate`: absolute seconds to (year, month, day). -/
def absDate (abs : Nat) : Int × Nat × Nat :=
  let d := abs / 86400
  let yy := absYear d
  let year : Int := (yy.1 : Int) + absoluteZeroYear
  let md := monthDay (isLeap year) yy.2
  (year, md.1, md.2)

/-- Go `time.absClock`: absolute seconds to (hour, minute, second). -/
def absClock (abs : Nat) : Nat × Nat × Nat :=
  let sec := abs % 86400
  let hour := sec / 3600
  let sec := sec - hour * 3600
  let minute := sec / 60
  let sec := sec - minute * 60
  (hour, minute, sec)

/-- ASCII digit character for `n < 10` (Go `'0' + byte(u)`). -/
def digitChar (n : Nat) : Char := Char.ofNat (48 + n)

/-- Go `time.appendInt`: decimal digits of `x`, sign first if negative,
zero-padded to `width` (with the 2- and 4-digit fast cases spelled as in
Go). -/
def appendInt (x : Int) (width : Nat) : List Char :=
  let u := x.natAbs
  let sign : List Char := if x < 0 then ['-'] else []
  let digits : List Char :=
    if width = 2 ∧ u < 100 then [digitChar (u / 10), digitChar (u % 10)]
    else if width = 4 ∧ u < 10000 then
      [digitChar (u / 1000), digitChar (u / 100 % 10), digitChar (u / 10 % 10), digitChar (u % 10)]
    else
      let ds := Nat.toDigits 10 u
      List.replicate (width - ds.length) '0' ++ ds
  sign ++ digits

/-- Go `Time.appendFormatRFC3339` with `nanos = false`, i.e.
`t.Format(time.RFC3339)`. -/
def formatRFC3339 (t : GoTime) : String :=
  let abs := timeAbs t
  let x := absDate abs
  let c := absClock abs
  let zone : List Char :=
    if t.offset = 0 then ['Z']
    else
      let zmin := Int.tdiv t.offset 60
      let sgn : List Char := if zmin < 0 then ['-'] else ['+']
      let z := zmin.natAbs
      sgn ++ appendInt (z / 60 : Nat) 2 ++ ':' :: appendInt (z % 60 : Nat) 2
  ⟨appendInt x.1 4 ++ '-' :: appendInt (x.2.1 : Int) 2 ++ '-' :: appendInt (x.2.2 : Int) 2
    ++ 'T' :: appendInt (c.1 : Int) 2 ++ ':' :: appendInt (c.2.1 : Int) 2
    ++ ':' :: appendInt (c.2.2 : Int) 2 ++ zone⟩

/-- Go byte test `'0' <= c && c <= '9'`. -/
def isDigitChar (c : Char) : Bool := '0' ≤ c ∧ c ≤ '9'

/-- The local `parseUint` of Go `time.parseRFC3339`: all characters must
be digits and the value must lie in `[lo, hi]` (Go signals failure via an
`ok` flag; here `none`). -/
def parseUintL (s : List Char) (lo hi : Nat) : Option Nat :=
  match s.foldl
      (fun acc c => acc.bind fun x => if isDigitChar c then some (x * 10 + (c.toNat - 48)) else none)
      (some 0) with
  | none => none
  | some x => if x < lo ∨ hi < x then none else some x

/-- Decimal value of a digit list (Go `atoi` on an all-digit slice). -/
def digitsVal (s : List Char) : Nat := s.foldl (fun a c => a * 10 + (c.toNat - 48)) 0

/-- Go `time.daysSinceEpoch`: days from the absolute epoch to Jan 1 of
`year` (the `uint64` cast is `% 2 ^ 64`; the in-place subtractions are
spelled as `%`). -/
def daysSinceEpoch (year : Int) : Nat :=
  let y := ((year - absoluteZeroYear) % (2 ^ 64 : Int)).toNat
  let n400 := y / 400
  let y1 := y % 400
  let n100 := y1 / 100
  let y2 := y1 % 100
  let n4 := y2 / 4
  let y3 := y2 % 4
  146097 * n400 + 36524 * n100 + 1461 * n4 + 365 * y3

/-- Go `time.Date(year, month, day, hour, minute, second, nsec, time.UTC)`
for arguments already in their calendar ranges (as produced by
`parseRFC3339`'s range checks), so Go's `norm` calls are the identity. -/
def dateToTime (year : Int) (month day hour minute second nsec : Nat) : GoTime :=
  let d := daysSinceEpoch year
  let d := d + dB (month - 1)
  let d := d + (if isLeap year ∧ 3 ≤ month then 1 else 0)
  let d := d + (day - 1)
  let abs : Nat := (d * 86400 + hour * 3600 + minute * 60 + second) % 2 ^ 64
  { sec := (abs : Int) - unixToAbsolute, nsec := nsec, offset := 0 }

/-- Go `time.parseRFC3339`, the strict fast path tried first by
`time.Parse(time.RFC3339, ·)` (a numeric-offset result's location is a
fixed zone with that offset). -/
def parseRFC3339 (str : String) : Option GoTime := do
  let s := str.toList
  if s.length < 19 then none else do
  let year ← parseUintL (s.take 4) 0 9999
  let month ← parseUintL ((s.drop 5).take 2) 1 12
  let day ← parseUintL ((s.drop 8).take 2) 1 (daysIn month (year : Int))
  let hour ← parseUintL ((s.drop 11).take 2) 0 23
  let minute ← parseUintL ((s.drop 14).take 2) 0 59
  let second ← parseUintL ((s.drop 17).take 2) 0 59
  if ¬(s.getD 4 ' ' = '-' ∧ s.getD 7 ' ' = '-' ∧ s.getD 10 ' ' = 'T'
        ∧ s.getD 13 ' ' = ':' ∧ s.getD 16 ' ' = ':') then none else do
  let rest := s.drop 19
  let frac : Nat × List Char :=
    if 2 ≤ rest.length ∧ rest.getD 0 ' ' = '.' ∧ isDigitChar (rest.getD 1 ' ') then
      let ds := (rest.drop 1).takeWhile isDigitChar
      let used := ds.take 9
      (digitsVal used * 10 ^ (9 - used.length), rest.drop (1 + ds.length))
    else (0, rest)
  let t := dateToTime (year : Int) month day hour minute second frac.1
  let rest := frac.2
  if rest = ['Z'] then some t
  else if rest.length ≠ 6 then none else do
  let hr ← parseUintL ((rest.drop 1).take 2) 0 23
  let mm ← parseUintL ((rest.drop 4).take 2) 0 59
  if ¬((rest.getD 0 ' ' = '-' ∨ rest.getD 0 ' ' = '+') ∧ rest.getD 3 ' ' = ':') then none else
  let zoneOffset : Int := ((hr * 60 + mm) * 60 : Nat)
  let zoneOffset := if rest.getD 0 ' ' = '-' then -zoneOffset else zoneOffset
  some { sec := t.sec - zoneOffset, nsec := t.nsec, offset := zoneOffset }

/-- Go `time.getnum`: read one or two digits; with `fixed = true` two
digits are required (as the layout chunks `01`, `04`, `05` demand),
otherwise a single digit is also accepted (chunk `15`, the hour). -/
def getnum (s : List Char) (fixed : Bool) : Option (Nat × List Char) :=
  if ¬ isDigitChar (s.getD 0 ' ') then none
  else if ¬ isDigitChar (s.getD 1 ' ') then
    if fixed then none
    else some ((s.getD 0 ' ').toNat - 48, s.drop 1)
  else some (((s.getD 0 ' ').toNat - 48) * 10 + ((s.getD 1 ' ').toNat - 48), s.drop 2)

/-- Matching one literal layout character in the general `parse` loop. -/
def expectChar (c : Char) (s : List Char) : Option (List Char) :=
  match s with
  | x :: rest => if x = c then some rest else none
  | [] => none

/-- The `stdISO8601ColonTZ` chunk of the general `parse` loop: `Z`, or a
sign and `hh:mm` read by `getnum` with no range check on `hh`/`mm`; it is
the final chunk of the layout, so remaining input means failure. -/
def parseZoneColon (s : List Char) : Option Int :=
  match s with
  | 'Z' :: rest => if rest = [] then some 0 else none
  | _ =>
    if s.length < 6 then none
    else if s.getD 3 ' ' ≠ ':' then none
    else if s.drop 6 ≠ [] then none
    else do
      let x ← getnum ((s.drop 1).take 2) true
      let y ← getnum ((s.drop 4).take 2) true
      let off : Int := ((x.1 * 60 + y.1) * 60 : Nat)
      if s.getD 0 ' ' = '+' then some off
      else if s.getD 0 ' ' = '-' then some (-off) else none

/-- Go's general `time.parse` loop specialized to the fixed chunk
sequence of the layout `"2006-01-02T15:04:05Z07:00"`: 4-digit year,
fixed 2-digit month/day/minute/second, 1-or-2-digit hour, literal
separators, optional `.`/`,`-led fraction before the zone chunk, and
the deferred month/day range checks after the loop.  `Date(...)` with a
fixed zone is `dateToTime` shifted by the zone offset. -/
def parseLaxRFC3339 (str : String) : Option GoTime := do
  let s := str.toList
  if s.length < 4 ∨ ¬ isDigitChar (s.getD 0 ' ') then none else do
  let yearChars := s.take 4
  if ¬ yearChars.all isDigitChar then none else do
  let year := digitsVal yearChars
  let s := s.drop 4
  let s ← expectChar '-' s
  let (month, s) ← getnum s true
  let s ← expectChar '-' s
  let (day, s) ← getnum s true
  let s ← expectChar 'T' s
  let (hour, s) ← getnum s false
  if 24 ≤ hour then none else do
  let s ← expectChar ':' s
  let (minute, s) ← getnum s true
  if 60 ≤ minute then none else do
  let s ← expectChar ':' s
  let (second, s) ← getnum s true
  if 60 ≤ second then none else do
  let frac : Nat × List Char :=
    if 2 ≤ s.length ∧ (s.getD 0 ' ' = '.' ∨ s.getD 0 ' ' = ',') ∧ isDigitChar (s.getD 1 ' ') then
      let ds := (s.drop 1).takeWhile isDigitChar
      let used := ds.take 9
      (digitsVal used * 10 ^ (9 - used.length), s.drop (1 + ds.length))
    else (0, s)
  let nsec := frac.1
  let s := frac.2
  let zone ← parseZoneColon s
  if month < 1 ∨ 12 < month then none
  else if day < 1 ∨ daysIn month (year : Int) < day then none
  else
    let t := dateToTime (year : Int) month day hour minute second nsec
    some { sec := t.sec - zone, nsec := t.nsec, offset := zone }

/-- Go `time.Parse(time.RFC3339, ·)`: the strict fast path, with the
lax general loop as fallback when it fails. -/
def timeParse (str : String) : Option GoTime :=
  match parseRFC3339 str with
  | some t => some t
  | none => parseLaxRFC3339 str

/-! ### The delivery-label core (`internal/mail/delivery.go`) -/

/-- Go constant `DeliveryStatePending`. -/
def DeliveryStatePending : String := "pending"

/-- Go constant `DeliveryStateAcked`. -/
def DeliveryStateAcked : String := "acked"

/-- Go constant `DeliveryLabelPending`. -/
def DeliveryLabelPending : String := "delivery:pending"

/-- Go constant `DeliveryLabelAcked`. -/
def DeliveryLabelAcked : String := "delivery:acked"

/-- Go constant `DeliveryLabelAckedByPrefix`. -/
def DeliveryLabelAckedByPrefix : String := "delivery-acked-by:"

/-- Go constant `DeliveryLabelAckedAtPrefix`. -/
def DeliveryLabelAckedAtPrefix : String := "delivery-acked-at:"

/-- Go `strings.HasPrefix(s, p)` (byte prefix; char prefix agrees since
every prefix used here is ASCII). -/
def hasPfx (s p : String) : Bool := p.toList.isPrefixOf s.toList

/-- Go `strings.TrimPrefix(s, p)`. -/
def trimPfx (s p : String) : String :=
  if hasPfx s p then ⟨s.toList.drop p.toList.length⟩ else s

/-- Go `DeliverySendLabels()` (a pure producer; modelled as its constant
return value). -/
def DeliverySendLabels : List String := [DeliveryLabelPending]

/-- Go `DeliveryAckLabelSequence(recipientIdentity, at)`. -/
def DeliveryAckLabelSequence (recipientIdentity : String) (t : GoTime) : List String :=
  let ackedAt := formatRFC3339 t.utc
  [DeliveryLabelAckedByPrefix ++ recipientIdentity,
   DeliveryLabelAckedAtPrefix ++ ackedAt,
   DeliveryLabelAcked]

/-- Accumulator of the label scan in Go `ParseDeliveryLabels`
(the loop's mutable locals). -/
structure DeliveryAcc where
  hasPending : Bool
  hasAcked : Bool
  ackedBy : String
  ackedAt : Option GoTime
deriving DecidableEq

/-- One iteration of the `switch` in Go `ParseDeliveryLabels`'s loop. -/
def parseDeliveryStep (acc : DeliveryAcc) (label : String) : DeliveryAcc :=
  if label = DeliveryLabelPending then { acc with hasPending := true }
  else if label = DeliveryLabelAcked then { acc with hasAcked := true }
  else if hasPfx label DeliveryLabelAckedByPrefix then
    { acc with ackedBy := trimPfx label DeliveryLabelAckedByPrefix }
  else if hasPfx label DeliveryLabelAckedAtPrefix then
    match timeParse (trimPfx label DeliveryLabelAckedAtPrefix) with
    | some t => { acc with ackedAt := some t }
    | none => acc
  else acc

/-- Go `ParseDeliveryLabels(labels)`: derive `(state, ackedBy, ackedAt)`. -/
def ParseDeliveryLabels (labels : List String) : String × String × Option GoTime :=
  let acc := labels.foldl parseDeliveryStep ⟨false, false, "", none⟩
  if acc.hasAcked then (DeliveryStateAcked, acc.ackedBy, acc.ackedAt)
  else if acc.hasPending then (DeliveryStatePending, "", none)
  else ("", "", none)

/-! ### Characterization of the label scan -/

/-- Values of `delivery-acked-by:` labels in scan order (the scan's
`switch` can only reach the `ackedBy` branch on these labels). -/
def deliveryByValues (labels : List String) : List String :=
  labels.filterMap fun l =>
    if hasPfx l DeliveryLabelAckedByPrefix then some (trimPfx l DeliveryLabelAckedByPrefix)
    else none

/-- Successfully parsed values of `delivery-acked-at:` labels in scan
order (labels whose value fails `timeParse` contribute nothing). -/
def deliveryAtValues (labels : List String) : List GoTime :=
  labels.filterMap fun l =>
    if hasPfx l DeliveryLabelAckedByPrefix then none
    else if hasPfx l DeliveryLabelAckedAtPrefix then
      timeParse (trimPfx l DeliveryLabelAckedAtPrefix)
    else none

/-- Days from the absolute epoch to Jan 1 of absolute year `y` (the closed
form of `daysSinceEpoch` on plain naturals, used to relate `absYear` and
`daysSinceEpoch`). -/
def yearStartDays (y : Nat) : Nat :=
  146097 * (y / 400) + 36524 * (y % 400 / 100) + 1461 * (y % 400 % 100 / 4) +
    365 * (y % 400 % 100 % 4)

/-- `natLeapYear y` holds when absolute year `y` (so calendar year
`y + absoluteZeroYear`) is a leap year, phrased over naturals
(`absoluteZeroYear` is 1 mod 400, so calendar year `y + absoluteZeroYear`
is leap iff `y + 1` is, mod the usual 4/100/400 rule). -/
def natLeapYear (y : Nat) : Prop :=
  (y + 1) % 4 = 0 ∧ ((y + 1) % 100 ≠ 0 ∨ (y + 1) % 400 = 0)

theorem foldl_overwrite {α : Type} (xs : List α) (d : α) :
    xs.foldl (fun _ v => v) d = xs.getLast?.getD d := by
  induction xs generalizing d with
  | nil => rfl
  | cons x xs ih =>
    cases xs with
    | nil => rfl
    | cons y ys => simpa using ih y

theorem foldl_overwrite_some {α : Type} (xs : List α) (d : Option α) :
    xs.foldl (fun _ v => some v) d = (xs.getLast?.map some).getD d := by
  induction xs generalizing d with
  | nil => rfl
  | cons x xs ih =>
    cases xs with
    | nil => rfl
    | cons y ys => simpa using ih (some y)

theorem foldl_parseDeliveryStep (labels : List String) (acc : DeliveryAcc) :
    labels.foldl parseDeliveryStep acc =
      ⟨acc.hasPending || labels.contains DeliveryLabelPending,
       acc.hasAcked || labels.contains DeliveryLabelAcked,
       (deliveryByValues labels).foldl (fun _ v => v) acc.ackedBy,
       (deliveryAtValues labels).foldl (fun _ v => some v) acc.ackedAt⟩ := by
  induction labels generalizing acc with
  | nil => simp [deliveryByValues, deliveryAtValues]
  | cons l ls ih =>
    have hpb : hasPfx DeliveryLabelPending DeliveryLabelAckedByPrefix = false := by decide
    have hpa : hasPfx DeliveryLabelPending DeliveryLabelAckedAtPrefix = false := by decide
    have hab : hasPfx DeliveryLabelAcked DeliveryLabelAckedByPrefix = false := by decide
    have haa : hasPfx DeliveryLabelAcked DeliveryLabelAckedAtPrefix = false := by decide
    have hd1 : (DeliveryLabelPending == DeliveryLabelAcked) = false := by decide
    have hd2 : (DeliveryLabelAcked == DeliveryLabelPending) = false := by decide
    simp only [List.foldl_cons, ih, deliveryByValues, deliveryAtValues, List.filterMap_cons,
      List.contains_cons]
    by_cases h1 : l = DeliveryLabelPending
    · subst h1
      simp [parseDeliveryStep, hpb, hpa, hd1, hd2, deliveryByValues, deliveryAtValues,
        Bool.or_assoc, Bool.or_comm, Bool.or_left_comm]
    · by_cases h2 : l = DeliveryLabelAcked
      · subst h2
        simp [parseDeliveryStep, hab, haa, h1, hd1, hd2, deliveryByValues, deliveryAtValues,
          Bool.or_assoc, Bool.or_comm, Bool.or_left_comm]
      · have e1 : (l == DeliveryLabelPending) = false := by simp [h1]
        have e2 : (l == DeliveryLabelAcked) = false := by simp [h2]
        have e1' : (DeliveryLabelPending == l) = false := by simpa using Ne.symm h1
        have e2' : (DeliveryLabelAcked == l) = false := by simpa using Ne.symm h2
        by_cases h3 : hasPfx l DeliveryLabelAckedByPrefix
        · simp [parseDeliveryStep, h1, h2, h3, e1, e2, e1', e2', deliveryByValues,
            deliveryAtValues]
        · by_cases h4 : hasPfx l DeliveryLabelAckedAtPrefix
          · cases hp : timeParse (trimPfx l DeliveryLabelAckedAtPrefix) with
            | none =>
              simp [parseDeliveryStep, h1, h2, h3, h4, hp, e1, e2, e1', e2', deliveryByValues,
                deliveryAtValues]
            | some t =>
              simp [parseDeliveryStep, h1, h2, h3, h4, hp, e1, e2, e1', e2', deliveryByValues,
                deliveryAtValues]
          · simp [parseDeliveryStep, h1, h2, h3, h4, e1, e2, e1', e2', deliveryByValues,
              deliveryAtValues]

theorem map_some_getD_none {α : Type} (x : Option α) : (x.map some).getD none = x := by
  cases x <;> rfl

theorem parseDeliveryLabels_eq (labels : List String) :
    ParseDeliveryLabels labels =
      if DeliveryLabelAcked ∈ labels then
        (DeliveryStateAcked, (deliveryByValues labels).getLast?.getD (""),
          (deliveryAtValues labels).getLast?)
      else if DeliveryLabelPending ∈ labels then (DeliveryStatePending, "", none)
      else ("", "", none) := by
  unfold ParseDeliveryLabels
  rw [foldl_parseDeliveryStep, foldl_overwrite, foldl_overwrite_some]
  by_cases ha : DeliveryLabelAcked ∈ labels <;>
    by_cases hp : DeliveryLabelPending ∈ labels <;>
      simp [ha, hp, map_some_getD_none]

/-! ### Prefix facts about the label vocabulary -/

/-- The derived state is `acked` exactly when the acked marker label is
in the set. -/
theorem state_acked_iff (labels : List String) :
    (ParseDeliveryLabels labels).1 = DeliveryStateAcked ↔ DeliveryLabelAcked ∈ labels := by
  rw [parseDeliveryLabels_eq]
  by_cases ha : DeliveryLabelAcked ∈ labels
  · simp [ha]
  · by_cases hp : DeliveryLabelPending ∈ labels <;> simp [ha, hp] <;> decide

/-! ### Correctness of the RFC 3339 format/parse round trip -/

set_option maxHeartbeats 1600000 in
theorem absYear_spec (d : Nat) :
    yearStartDays (absYear d).1 + (absYear d).2 = d ∧
    (absYear d).1 ≤ d ∧
    (absYear d).2 ≤ 365 ∧
    (¬natLeapYear (absYear d).1 → (absYear d).2 < 365) := by
  simp only [absYear, yearStartDays, natLeapYear]
  set n400 := d / 146097 with hn400
  set d1 := d - 146097 * n400 with hd1
  set n100a := d1 / 36524 with hn100a
  set n100 := n100a - n100a / 4 with hn100
  set d2 := d1 - 36524 * n100 with hd2
  set n4 := d2 / 1461 with hn4
  set d3 := d2 - 1461 * n4 with hd3
  set n1a := d3 / 365 with hn1a
  set n1 := n1a - n1a / 4 with hn1
  set yday := d3 - 365 * n1 with hyday
  set y := 400 * n400 + 100 * n100 + 4 * n4 + n1 with hy
  clear_value n400 d1 n100a n100 d2 n4 d3 n1a n1 yday y
  have f1 : d1 < 146097 ∧ d = 146097 * n400 + d1 := by omega
  have f2 : n100 ≤ 3 ∧ 36524 * n100 ≤ d1 ∧ d2 ≤ 36524 ∧ d1 = 36524 * n100 + d2 := by omega
  have f3 : n4 ≤ 24 ∧ d2 = 1461 * n4 + d3 ∧ d3 ≤ 1460 := by omega
  have f4 : n1 ≤ 3 ∧ d3 = 365 * n1 + yday ∧ yday ≤ 365 := by omega
  have g1 : y / 400 = n400 := by omega
  have g2 : y % 400 = 100 * n100 + 4 * n4 + n1 := by omega
  rw [g1, g2]
  have g3 : (100 * n100 + 4 * n4 + n1) / 100 = n100 ∧
      (100 * n100 + 4 * n4 + n1) % 100 = 4 * n4 + n1 := by omega
  rw [g3.1, g3.2]
  have g4 : (4 * n4 + n1) / 4 = n4 ∧ (4 * n4 + n1) % 4 = n1 := by omega
  rw [g4.1, g4.2]
  have f5 : yday = 365 → n1 = 3 := by omega
  have f6 : yday = 365 → n4 = 24 → n100 = 3 := by omega
  refine ⟨by omega, by omega, by omega, ?_⟩
  intro h
  omega

set_option maxHeartbeats 1600000 in
set_option maxRecDepth 4000 in
theorem monthDay_spec : ∀ leap : Bool, ∀ yday : Nat, yday < 366 →
    (leap = false → yday < 365) →
    1 ≤ (monthDay leap yday).1 ∧ (monthDay leap yday).1 ≤ 12 ∧
    1 ≤ (monthDay leap yday).2 ∧
    (monthDay leap yday).2 ≤
      (if (monthDay leap yday).1 = 2 ∧ leap = true then 29
       else dB (monthDay leap yday).1 - dB ((monthDay leap yday).1 - 1)) ∧
    dB ((monthDay leap yday).1 - 1) +
      (if leap = true ∧ 3 ≤ (monthDay leap yday).1 then 1 else 0) +
      ((monthDay leap yday).2 - 1) = yday := by decide

theorem isLeap_iff_natLeapYear (y : Nat) :
    (isLeap ((y : Int) + absoluteZeroYear) = true) ↔ natLeapYear y := by
  simp only [isLeap, natLeapYear, absoluteZeroYear, decide_eq_true_eq]
  constructor <;> intro h <;> omega

theorem absClock_spec (a : Nat) :
    (absClock a).1 * 3600 + (absClock a).2.1 * 60 + (absClock a).2.2 = a % 86400 ∧
    (absClock a).1 < 24 ∧ (absClock a).2.1 < 60 ∧ (absClock a).2.2 < 60 := by
  simp only [absClock]
  omega

theorem daysSinceEpoch_eq (y : Nat) (h : y < 18446744073709551616) :
    daysSinceEpoch ((y : Int) + absoluteZeroYear) = yearStartDays y := by
  have e1 : (y : Int) + absoluteZeroYear - absoluteZeroYear = (y : Int) := by ring
  have e2 : ((2 : Int) ^ 64) = 18446744073709551616 := by norm_num
  have e3 : (((y : Int)) % 18446744073709551616).toNat = y := by omega
  simp only [daysSinceEpoch, yearStartDays, e1, e2, e3]

theorem digitChar_facts : ∀ d : Nat, d < 10 →
    isDigitChar (digitChar d) = true ∧ (digitChar d).toNat - 48 = d := by decide

theorem parseUintL_two (a b lo hi : Nat) (ha : a < 10) (hb : b < 10)
    (hlo : lo ≤ a * 10 + b) (hhi : a * 10 + b ≤ hi) :
    parseUintL [digitChar a, digitChar b] lo hi = some (a * 10 + b) := by
  obtain ⟨da1, da2⟩ := digitChar_facts a ha
  obtain ⟨db1, db2⟩ := digitChar_facts b hb
  simp only [parseUintL, List.foldl_cons, List.foldl_nil, da1, da2, db1, db2,
    Option.some_bind, if_pos, Nat.zero_mul, Nat.zero_add]
  rw [if_neg (by omega)]

theorem parseUintL_four (a b c d lo hi : Nat) (ha : a < 10) (hb : b < 10)
    (hc : c < 10) (hd : d < 10)
    (hlo : lo ≤ ((a * 10 + b) * 10 + c) * 10 + d)
    (hhi : ((a * 10 + b) * 10 + c) * 10 + d ≤ hi) :
    parseUintL [digitChar a, digitChar b, digitChar c, digitChar d] lo hi =
      some (((a * 10 + b) * 10 + c) * 10 + d) := by
  obtain ⟨da1, da2⟩ := digitChar_facts a ha
  obtain ⟨db1, db2⟩ := digitChar_facts b hb
  obtain ⟨dc1, dc2⟩ := digitChar_facts c hc
  obtain ⟨dd1, dd2⟩ := digitChar_facts d hd
  simp only [parseUintL, List.foldl_cons, List.foldl_nil, da1, da2, db1, db2, dc1, dc2,
    dd1, dd2, Option.some_bind, if_pos, Nat.zero_mul, Nat.zero_add]
  rw [if_neg (by omega)]

theorem appendInt_two (n : Nat) (h : n < 100) :
    appendInt (n : Int) 2 = [digitChar (n / 10), digitChar (n % 10)] := by
  have h1 : ¬ ((n : Int) < 0) := by omega
  simp [appendInt, h1, h]

theorem appendInt_four (x : Int) (h0 : 0 ≤ x) (h1 : x < 10000) :
    appendInt x 4 = [digitChar (x.natAbs / 1000), digitChar (x.natAbs / 100 % 10),
      digitChar (x.natAbs / 10 % 10), digitChar (x.natAbs % 10)] := by
  have h2 : ¬ x < 0 := by omega
  have h3 : x.natAbs < 10000 := by omega
  simp [appendInt, h2, h3]


set_option maxHeartbeats 1600000 in
theorem parseRFC3339_explicit (Y M D H Mi S : Nat)
    (hY : Y ≤ 9999) (hM1 : 1 ≤ M) (hM2 : M ≤ 12) (hD1 : 1 ≤ D)
    (hD2 : D ≤ daysIn M (Y : Int)) (hD31 : D ≤ 31) (hH : H ≤ 23) (hMi : Mi ≤ 59) (hS : S ≤ 59) :
    parseRFC3339 ⟨[digitChar (Y / 1000), digitChar (Y / 100 % 10), digitChar (Y / 10 % 10),
      digitChar (Y % 10), '-', digitChar (M / 10), digitChar (M % 10), '-',
      digitChar (D / 10), digitChar (D % 10), 'T', digitChar (H / 10), digitChar (H % 10),
      ':', digitChar (Mi / 10), digitChar (Mi % 10), ':', digitChar (S / 10),
      digitChar (S % 10), 'Z']⟩ = some (dateToTime (Y : Int) M D H Mi S 0) := by
  have hp4 := parseUintL_four (Y / 1000) (Y / 100 % 10) (Y / 10 % 10) (Y % 10) 0 9999
    (by omega) (by omega) (by omega) (by omega) (by omega) (by omega)
  have hv4 : ((Y / 1000 * 10 + Y / 100 % 10) * 10 + Y / 10 % 10) * 10 + Y % 10 = Y := by omega
  rw [hv4] at hp4
  have hpM := parseUintL_two (M / 10) (M % 10) 1 12 (by omega) (by omega) (by omega) (by omega)
  have hvM : M / 10 * 10 + M % 10 = M := by omega
  rw [hvM] at hpM
  have hpD := parseUintL_two (D / 10) (D % 10) 1 (daysIn M (Y : Int)) (by omega) (by omega)
    (by omega) (by omega)
  have hvD : D / 10 * 10 + D % 10 = D := by omega
  rw [hvD] at hpD
  have hpH := parseUintL_two (H / 10) (H % 10) 0 23 (by omega) (by omega) (by omega) (by omega)
  have hvH : H / 10 * 10 + H % 10 = H := by omega
  rw [hvH] at hpH
  have hpMi := parseUintL_two (Mi / 10) (Mi % 10) 0 59 (by omega) (by omega) (by omega) (by omega)
  have hvMi : Mi / 10 * 10 + Mi % 10 = Mi := by omega
  rw [hvMi] at hpMi
  have hpS := parseUintL_two (S / 10) (S % 10) 0 59 (by omega) (by omega) (by omega) (by omega)
  have hvS : S / 10 * 10 + S % 10 = S := by omega
  rw [hvS] at hpS
  simp only [parseRFC3339, String.toList]
  simp [hp4, hpM, hpD, hpH, hpMi, hpS]


set_option maxHeartbeats 3200000 in
theorem parse_format_roundtrip (t : GoTime) (h0 : t.offset = 0)
    (hlo : -62167219200 ≤ t.sec) (hhi : t.sec < 253402300800) :
    parseRFC3339 (formatRFC3339 t) = some ⟨t.sec, 0, 0⟩ := by
  have e64 : ((2 : Int) ^ 64) = 18446744073709551616 := by norm_num
  set A := timeAbs t with hA
  have habs : ((A : Nat) : Int) = t.sec + 9223372028715321600 := by
    rw [hA]
    simp only [timeAbs, h0, unixToAbsolute, e64]
    omega
  have hAb : 9223309861496121600 ≤ A ∧ A < 9223372282117622400 := by omega
  have hys := absYear_spec (A / 86400)
  set y := (absYear (A / 86400)).1 with hy
  set yday := (absYear (A / 86400)).2 with hyd
  obtain ⟨hsum, hyled, hyd365, hydlt⟩ := hys
  have habsDate : absDate A =
      ((y : Int) + absoluteZeroYear, monthDay (isLeap ((y : Int) + absoluteZeroYear)) yday) :=
    rfl
  set m := (monthDay (isLeap ((y : Int) + absoluteZeroYear)) yday).1 with hm
  set dd := (monthDay (isLeap ((y : Int) + absoluteZeroYear)) yday).2 with hdd
  have hmd_pair : monthDay (isLeap ((y : Int) + absoluteZeroYear)) yday = (m, dd) := rfl
  have habsDate2 : absDate A = ((y : Int) + absoluteZeroYear, m, dd) := by
    rw [habsDate, hmd_pair]
  obtain ⟨hclk, hlt24, hlt60a, hlt60b⟩ := absClock_spec A
  set hh := (absClock A).1 with hhh
  set mm2 := (absClock A).2.1 with hmm2
  set ss := (absClock A).2.2 with hss
  have hclk_pair : absClock A = (hh, mm2, ss) := rfl
  have hlb := isLeap_iff_natLeapYear y
  have hyd366 : yday < 366 := by omega
  have hydlt2 : isLeap ((y : Int) + absoluteZeroYear) = false → yday < 365 := by
    intro hf
    refine hydlt ?_
    intro hnl
    rw [hlb.mpr hnl] at hf
    exact absurd hf (by simp)
  have hmd := monthDay_spec (isLeap ((y : Int) + absoluteZeroYear)) yday hyd366 hydlt2
  rw [hmd_pair] at hmd
  dsimp only at hmd
  obtain ⟨hm1, hm2, hdd1, hdd2, heq5⟩ := hmd
  clear_value y yday m dd hh mm2 ss
  have hydlt3 : ¬((y + 1) % 4 = 0 ∧ ((y + 1) % 100 ≠ 0 ∨ (y + 1) % 400 = 0)) → yday < 365 :=
    hydlt
  have hDb : 106751990353566 ≤ A / 86400 ∧ A / 86400 ≤ 106751994005990 := by omega
  have hdec : ∃ q a1 a2 c : Nat, a1 ≤ 3 ∧ a2 ≤ 24 ∧ c ≤ 3 ∧ 100 * a1 + 4 * a2 + c ≤ 399 ∧
      y = 400 * q + 100 * a1 + 4 * a2 + c ∧
      yearStartDays y = 146097 * q + 36524 * a1 + 1461 * a2 + 365 * c := by
    refine ⟨y / 400, y % 400 / 100, y % 400 % 100 / 4, y % 400 % 100 % 4,
      by omega, by omega, by omega, by omega, by omega, ?_⟩
    simp only [yearStartDays]
  obtain ⟨q, a1, a2, c, hA1, hA2, hA3, hA4, hYdec, hYSD⟩ := hdec
  have hcrit : 100 * a1 + 4 * a2 + c = 398 → yday < 365 := fun h => hydlt3 (by omega)
  have hsum3 : 146097 * q + 36524 * a1 + 1461 * a2 + 365 * c + yday = A / 86400 := by
    rw [← hYSD]
    exact hsum
  have hyb : 292277022399 ≤ y ∧ y ≤ 292277032398 := by
    clear habs hAb hclk hlt24 hlt60a hlt60b hdd2 heq5 e64 hsum
    constructor
    · rcases (by omega : q ≤ 730692554 ∨ q = 730692555 ∨ 730692556 ≤ q) with h | h | h
      · omega
      · omega
      · omega
    · rcases (by omega : q ≤ 730692579 ∨ q = 730692580 ∨ 730692581 ≤ q) with h | h | h
      · omega
      · omega
      · omega
  set u := y - 292277022399 with hu
  clear_value u
  have hu9999 : u ≤ 9999 := by omega
  have hcastu : ((u : Nat) : Int) = (y : Int) + absoluteZeroYear := by
    simp only [absoluteZeroYear]
    omega
  have hnatAbs : ((y : Int) + absoluteZeroYear).natAbs = u := by
    simp only [absoluteZeroYear]
    omega
  have hdB31 : ∀ k : Nat, 1 ≤ k → k ≤ 12 → dB k - dB (k - 1) ≤ 31 := by decide
  have hdd31 : dd ≤ 31 := by
    rcases Classical.em (m = 2 ∧ isLeap ((y : Int) + absoluteZeroYear) = true) with hc | hc
    · rw [if_pos hc] at hdd2
      omega
    · rw [if_neg hc] at hdd2
      have := hdB31 m hm1 hm2
      omega
  have hdaysIn : dd ≤ daysIn m ((u : Nat) : Int) := by
    rw [hcastu]
    simp only [daysIn]
    exact hdd2
  have hfmt : formatRFC3339 t =
      ⟨[digitChar (u / 1000), digitChar (u / 100 % 10), digitChar (u / 10 % 10),
        digitChar (u % 10), '-', digitChar (m / 10), digitChar (m % 10), '-',
        digitChar (dd / 10), digitChar (dd % 10), 'T', digitChar (hh / 10), digitChar (hh % 10),
        ':', digitChar (mm2 / 10), digitChar (mm2 % 10), ':', digitChar (ss / 10),
        digitChar (ss % 10), 'Z']⟩ := by
    simp only [formatRFC3339, ← hA, habsDate2, hclk_pair, h0]
    rw [appendInt_four ((y : Int) + absoluteZeroYear) (by omega) (by omega)]
    rw [hnatAbs]
    rw [appendInt_two m (by omega), appendInt_two dd (by omega), appendInt_two hh (by omega),
      appendInt_two mm2 (by omega), appendInt_two ss (by omega)]
    simp
  rw [hfmt]
  rw [parseRFC3339_explicit u m dd hh mm2 ss hu9999 hm1 hm2 hdd1 hdaysIn hdd31
    (by omega) (by omega) (by omega)]
  congr 1
  rw [hcastu]
  simp only [dateToTime]
  rw [daysSinceEpoch_eq y (by omega)]
  have heq5x : dB (m - 1) +
      ((if isLeap ((y : Int) + absoluteZeroYear) = true ∧ 3 ≤ m then 1 else 0) + (dd - 1)) =
        yday := by
    rw [← Nat.add_assoc]
    exact heq5
  have hdsum : yearStartDays y + dB (m - 1) +
      (if isLeap ((y : Int) + absoluteZeroYear) = true ∧ 3 ≤ m then 1 else 0) + (dd - 1) =
        A / 86400 := by
    simp only [Nat.add_assoc]
    rw [heq5x]
    exact hsum
  rw [hdsum]
  have habs86 : A / 86400 * 86400 + hh * 3600 + mm2 * 60 + ss = A := by omega
  rw [habs86]
  have e64n : ((2 : Nat) ^ 64) = 18446744073709551616 := by norm_num
  rw [e64n, Nat.mod_eq_of_lt (by omega)]
  simp only [unixToAbsolute]
  congr 1
  omega

/-! ### Claim theorems -/

/-- C1: any label list containing `delivery:pending` but not
`delivery:acked` derives state `pending` with empty `ackedBy` and no
`ackedAt`, whatever other labels (including ack-metadata labels) are
present. -/
theorem pending_without_acked_is_pending (S : List String)
    (hp : DeliveryLabelPending ∈ S) (ha : DeliveryLabelAcked ∉ S) :
    ParseDeliveryLabels S = (DeliveryStatePending, "", none) := by
  rw [parseDeliveryLabels_eq]
  simp [hp, ha]

/-- C1 witness: the partial-ack-write label set of the crash-safety test
derives `pending` with no metadata. -/
theorem pending_without_acked_is_pending_witness :
    ParseDeliveryLabels [DeliveryLabelPending,
      DeliveryLabelAckedByPrefix ++ "gastown/worker",
      DeliveryLabelAckedAtPrefix ++ "2026-02-17T12:00:00Z"] =
      (DeliveryStatePending, "", none) :=
  pending_without_acked_is_pending _ (by decide) (by decide)

/-- C2: once the derived state of `S` is `acked`, appending any further
labels keeps it `acked`; and any list containing `delivery:acked`
derives `acked`, whether or not `delivery:pending` is present. -/
theorem acked_state_monotone (S ext S' : List String)
    (h : (ParseDeliveryLabels S).1 = DeliveryStateAcked)
    (h' : DeliveryLabelAcked ∈ S') :
    (ParseDeliveryLabels (S ++ ext)).1 = DeliveryStateAcked ∧
      (ParseDeliveryLabels S').1 = DeliveryStateAcked := by
  refine ⟨?_, (state_acked_iff S').mpr h'⟩
  exact (state_acked_iff _).mpr (List.mem_append_left ext ((state_acked_iff S).mp h))

/-- C2 witness: appending labels after an ack keeps state `acked`, and
`delivery:acked` alongside `delivery:pending` still derives `acked`. -/
theorem acked_state_monotone_witness :
    (ParseDeliveryLabels ([DeliveryLabelAcked] ++ [DeliveryLabelPending, "x"])).1 =
        DeliveryStateAcked ∧
      (ParseDeliveryLabels [DeliveryLabelPending, DeliveryLabelAcked]).1 = DeliveryStateAcked :=
  acked_state_monotone [DeliveryLabelAcked] [DeliveryLabelPending, "x"]
    [DeliveryLabelPending, DeliveryLabelAcked] (by decide) (by decide)

/-- C6: with neither marker label present, the derived result is the
unknown state with empty metadata, whatever other labels are present. -/
theorem no_marker_unknown (S : List String)
    (hp : DeliveryLabelPending ∉ S) (ha : DeliveryLabelAcked ∉ S) :
    ParseDeliveryLabels S = ("", "", none) := by
  rw [parseDeliveryLabels_eq]
  simp [hp, ha]

/-- C6 witness: metadata and unrecognized labels alone derive the
unknown state. -/
theorem no_marker_unknown_witness :
    ParseDeliveryLabels [DeliveryLabelAckedByPrefix ++ "gastown/worker", "color:red"] =
      ("", "", none) :=
  no_marker_unknown _ (by decide) (by decide)

/-- C9: the send-phase producer is the constant one-element sequence
containing exactly the pending marker label (purity and determinism are
immediate: it is a constant). -/
theorem deliverySendLabels_spec : DeliverySendLabels = ["delivery:pending"] := rfl

/-- A success of the strict fast path is a success of `time.Parse`. -/
theorem timeParse_of_strict (s : String) (t : GoTime)
    (h : parseRFC3339 s = some t) : timeParse s = some t := by
  simp [timeParse, h]

set_option maxRecDepth 8000 in
/-- C3 counterexample: for a timestamp in year 10000 the produced
`delivery-acked-at:` value does not re-parse at all (Go prints a 5-digit
year, which both the strict fast path and the lax fallback of
`time.Parse` reject), so the re-parse clause of the claim fails for
that t. -/
theorem deliveryAckLabelSequence_counterexample :
    (DeliveryAckLabelSequence ("gastown/worker") ⟨253402300800, 0, 0⟩).getD 1 ("") =
        DeliveryLabelAckedAtPrefix ++ "10000-01-01T00:00:00Z" ∧
      parseRFC3339 ("10000-01-01T00:00:00Z") = none ∧
      timeParse ("10000-01-01T00:00:00Z") = none := by
  refine ⟨by decide, by decide, by decide⟩

set_option maxRecDepth 8000 in
/-- C3 (amended): for every recipient `r` and every timestamp `t` whose
UTC calendar year lies in 0..9999 (re-parse is impossible outside that
range since both tiers of `time.Parse` require a 4-digit year, as the
counterexample shows at year 10000), the ack sequence
is exactly the three-element ordered sequence of the `delivery-acked-by:`
label, the `delivery-acked-at:` label carrying `t` normalized to UTC and
formatted as RFC 3339 at second precision, and the exact marker
`delivery:acked`; the timestamp element re-parses — already under the
strict fast path, hence under `time.Parse` — to `t` normalized to UTC
and truncated to seconds; and the concrete example from the spec
holds. -/
theorem deliveryAckLabelSequence_spec (r : String) (t : GoTime)
    (h1 : -62167219200 ≤ t.sec) (h2 : t.sec < 253402300800) :
    DeliveryAckLabelSequence r t =
        [DeliveryLabelAckedByPrefix ++ r,
          DeliveryLabelAckedAtPrefix ++ formatRFC3339 t.utc, DeliveryLabelAcked] ∧
      (DeliveryAckLabelSequence r t).getD 2 ("") = DeliveryLabelAcked ∧
      parseRFC3339 (formatRFC3339 t.utc) = some ⟨t.sec, 0, 0⟩ ∧
      timeParse (formatRFC3339 t.utc) = some ⟨t.sec, 0, 0⟩ ∧
      DeliveryAckLabelSequence ("gastown/worker") ⟨1771329600, 0, 0⟩ =
        ["delivery-acked-by:gastown/worker", "delivery-acked-at:2026-02-17T12:00:00Z",
          "delivery:acked"] := by
  have h3 := parse_format_roundtrip t.utc rfl h1 h2
  exact ⟨rfl, rfl, h3, timeParse_of_strict _ _ h3, by decide⟩

set_option maxRecDepth 8000 in
/-- C3 witness: the ack sequence and the re-parse round trip at the
spec's concrete recipient and timestamp. -/
theorem deliveryAckLabelSequence_spec_witness :
    DeliveryAckLabelSequence ("gastown/worker") ⟨1771329600, 0, 0⟩ =
        [DeliveryLabelAckedByPrefix ++ "gastown/worker",
          DeliveryLabelAckedAtPrefix ++ formatRFC3339 (GoTime.mk 1771329600 0 0).utc,
          DeliveryLabelAcked] ∧
      parseRFC3339 (formatRFC3339 (GoTime.mk 1771329600 0 0).utc) =
        some ⟨1771329600, 0, 0⟩ :=
  ⟨(deliveryAckLabelSequence_spec ("gastown/worker") ⟨1771329600, 0, 0⟩ (by decide)
      (by decide)).1,
    (deliveryAckLabelSequence_spec ("gastown/worker") ⟨1771329600, 0, 0⟩ (by decide)
      (by decide)).2.2.1⟩

end Mail
